import Mathlib

/-!
Verification of the continuebee directory service (rust/server).

The development shallowly embeds the storage layer (`storage/user_client.rs`)
and the delete handler (`handlers/delete_user_handler.rs`). Documents are a
JSON-like value type; the storage backend is modelled as the in-memory
key-value map variant sanctioned by the spec (section 4.1). External
cryptographic capabilities (signature parsing, public-key parsing,
verification) are opaque parameters, as the spec prescribes (section 1).
Types that live in repository modules outside the provided sources
(`User`, `PubKeys`, `Client`, `Response`, request structs, `remove_key`)
carry a doc comment starting `Modelled from the spec:`.
-/

set_option autoImplicit false

/-- JSON-like document value stored under one key (spec glossary: Document). -/
inductive Json where
  | null : Json
  | str : String → Json
  | obj : List (String × Json) → Json

/-- Lookup of the first value bound to key `k` in an association list. -/
def lookupKey {α : Type} : List (String × α) → String → Option α
  | [], _ => none
  | (k', v) :: rest, k => if k' = k then some v else lookupKey rest k

/-- Removal of every binding of key `k` from an association list. -/
def eraseKey {α : Type} : List (String × α) → String → List (String × α)
  | [], _ => []
  | (k', v) :: rest, k =>
    if k' = k then eraseKey rest k else (k', v) :: eraseKey rest k

/-- Storage state of the backend: one JSON document per string key
(in-memory map variant of the spec's Storage Backend contract, section 4.1). -/
abbrev Storage := List (String × Json)

namespace Storage

/-- Modelled from the spec: backend `get(key)` returns the stored document
for `key`, or absence if no such key exists (spec section 4.1). -/
def get (s : Storage) (k : String) : Option Json :=
  lookupKey s k

/-- Modelled from the spec: backend `set(key, value)` creates or overwrites
the document at `key` (spec section 4.1). -/
def set (s : Storage) (k : String) (v : Json) : Storage :=
  (k, v) :: eraseKey s k

/-- Modelled from the spec: backend `delete(key)` removes the document at
`key` if present and returns whether a document was removed
(spec section 4.1, idempotent delete). -/
def delete (s : Storage) (k : String) : Bool × Storage :=
  ((lookupKey s k).isSome, eraseKey s k)

end Storage

/-- Modelled from the spec: the `User` record — `uuid`, public key stored
verbatim as a string, and the mutable credential hash. Field names follow
the Rust struct usage visible in the repository tests
(`result.uuid`, `result.pub_key`, `result.hash`). -/
structure User where
  uuid : String
  pub_key : String
  hash : String
deriving DecidableEq

/-- Serialization of a `User` into its JSON document
(spec section 6: field names are stable and round-trip losslessly). -/
def encodeUser (u : User) : Json :=
  Json.obj [("uuid", Json.str u.uuid), ("pub_key", Json.str u.pub_key),
            ("hash", Json.str u.hash)]

/-- Deserialization of a `User` from a JSON document; any document that is
not an object carrying string fields `uuid`, `pub_key`, `hash` fails to
decode (models `serde_json::from_value::<User>`). -/
def decodeUser : Json → Option User
  | Json.obj fields =>
    match lookupKey fields "uuid", lookupKey fields "pub_key",
          lookupKey fields "hash" with
    | some (Json.str uuid), some (Json.str pub_key), some (Json.str hash) =>
      some ⟨uuid, pub_key, hash⟩
    | _, _, _ => none
  | _ => none

/-- Modelled from the spec: the `PublicKeyIndex` (`PubKeys`) document — a
mapping from public-key string to user UUID, unique per public key
(spec section 3). Represented as an association list keyed by the
public-key string. -/
abbrev PubKeys := List (String × String)

namespace PubKeys

/-- Modelled from the spec: `PubKeys::default()` is the empty mapping. -/
def default : PubKeys := []

/-- Modelled from the spec: `get_user_uuid(pub_key)` resolves the UUID
registered for a public key, if any. -/
def get_user_uuid (ks : PubKeys) (pub_key : String) : Option String :=
  lookupKey ks pub_key

/-- Modelled from the spec: `add_user_uuid(user_uuid, pub_key)` inserts or
overwrites the `pub_key -> user_uuid` entry (spec section 4.3,
last write wins). -/
def add_user_uuid (ks : PubKeys) (user_uuid pub_key : String) : PubKeys :=
  (pub_key, user_uuid) :: eraseKey ks pub_key

/-- Modelled from the spec: `PubKeys::key(hash, pub_key)` builds the
caller-specified index-entry key used by the delete flow (spec section 6);
its exact composition is opaque to every property proved here. -/
def key (hash pub_key : String) : String :=
  hash ++ pub_key

end PubKeys

/-- Serialization of the `PubKeys` mapping into one JSON object document. -/
def encodePubKeys (ks : PubKeys) : Json :=
  Json.obj (ks.map fun p => (p.1, Json.str p.2))

/-- Deserialization of the entry list of a `PubKeys` JSON object. -/
def decodeEntries : List (String × Json) → Option PubKeys
  | [] => some []
  | (k, Json.str v) :: rest =>
    match decodeEntries rest with
    | some tail => some ((k, v) :: tail)
    | none => none
  | _ => none

/-- Deserialization of a `PubKeys` mapping from a JSON document
(models `serde_json::from_value::<PubKeys>`). -/
def decodePubKeys : Json → Option PubKeys
  | Json.obj fields => decodeEntries fields
  | _ => none

/-- Modelled from the spec: opaque parsed signature value of the external
signing capability (spec section 1 treats crypto as opaque). -/
structure Signature where
  raw : String
deriving DecidableEq

/-- Modelled from the spec: opaque parsed public key of the external
signing capability; `raw` is its verbatim string form
(spec section 3: the key is stored in round-trippable string form). -/
structure PublicKey where
  raw : String
deriving DecidableEq

/-- Modelled from the spec: the external cryptographic capabilities consumed
by the handler — `Signature::from_str`, `User::pub_key()` (parsing the
stored public-key string), and `Sessionless::verify` reduced to its
success bit (spec sections 1 and 4.4). -/
structure CryptoEnv where
  signature_from_str : String → Option Signature
  pub_key_parse : String → Option PublicKey
  verify : String → PublicKey → Signature → Bool

/-- String literal `"user"` from `user_client.rs`. -/
def USER_STRING : String := "user"

/-- String literal `"keys"` from `user_client.rs`. -/
def KEYS_STRING : String := "keys"

/-- Error raised by the modelled `update_hash` when the user is absent. -/
inductive UpdateError where
  | notFound : UpdateError
deriving DecidableEq

namespace UserCLient

/-- Storage key of a user record: `format!("{}:{}", USER_STRING, uuid)`
(`user_client.rs`, fn `key`). -/
def key (uuid : String) : String :=
  USER_STRING ++ ":" ++ uuid

/-- The `get_user` operation (`user_client.rs`): reads the document at
`key uuid` and decodes it; a missing document and a decode failure both
yield `none`. -/
def get_user (s : Storage) (uuid : String) : Option User :=
  match Storage.get s (key uuid) with
  | some value =>
    match decodeUser value with
    | some user => some user
    | none => none
  | none => none

/-- The `put_user` operation (`user_client.rs`): builds
`User { uuid, pub_key, hash }` and writes it under `key uuid`, returning
the new user. The fresh `uuid` comes from the external generator
`Sessionless::generate_uuid`, taken here as the `uuid` argument; the
in-memory backend's `set` cannot fail, so the I/O error branch of the
source is absent. -/
def put_user (s : Storage) (uuid pub_key hash : String) : User × Storage :=
  let user : User := ⟨uuid, pub_key, hash⟩
  (user, Storage.set s (key user.uuid) (encodeUser user))

/-- The `delete_user` operation (`user_client.rs`): deletes the document at
`key uuid` and returns whether a document was removed. -/
def delete_user (s : Storage) (uuid : String) : Bool × Storage :=
  Storage.delete s (key uuid)

/-- The `save_pub_keys` operation (`user_client.rs`): serializes the given
mapping and overwrites the whole document at `KEYS_STRING`. -/
def save_pub_keys (s : Storage) (ks : PubKeys) : Storage :=
  Storage.set s KEYS_STRING (encodePubKeys ks)

/-- The `get_keys` operation (`user_client.rs`): reads the document at
`KEYS_STRING`; a missing document and a decode failure both yield the
default (empty) mapping as a successful result, never an error. -/
def get_keys (s : Storage) : PubKeys :=
  match Storage.get s KEYS_STRING with
  | some value =>
    match decodePubKeys value with
    | some result => result
    | none => PubKeys.default
  | none => PubKeys.default

/-- The `update_keys` operation (`user_client.rs`): reads the current
mapping, inserts or overwrites the entry for `pub_key.to_string()`, and
saves the whole mapping back. -/
def update_keys (s : Storage) (pub_key : PublicKey) (user_uuid : String) :
    Storage :=
  save_pub_keys s (PubKeys.add_user_uuid (get_keys s) user_uuid pub_key.raw)

/-- The `get_user_uuid` operation (`user_client.rs`): resolves the UUID
registered for `pub_key.to_string()` in the index. -/
def get_user_uuid (s : Storage) (pub_key : PublicKey) : Option String :=
  PubKeys.get_user_uuid (get_keys s) pub_key.raw

/-- Modelled from the spec: `remove_key` is not among the provided sources;
the spec (section 6, Delete) says the delete flow removes the
caller-specified index entry, so it deletes the entry at the given key
from the `KEYS_STRING` document and writes the mapping back. The
in-memory backend cannot fail, so the result is always a success. -/
def remove_key (s : Storage) (k : String) : Storage :=
  save_pub_keys s (eraseKey (get_keys s) k)

/-- Modelled from the spec: `updateCredentialHash` (spec section 4.3).
The repository's `update_hash` is missing from the compiled sources — it
appears in `user_client.rs` only as a commented-out TODO block (lines
62-69) — so this definition follows the spec's words: read the existing
user, fail with `NotFound` if absent, replace the credential hash, and
rewrite the full record with the same `uuid` and `publicKey`, returning
the updated user. -/
def update_hash (s : Storage) (uuid new_hash : String) :
    Except UpdateError (User × Storage) :=
  match get_user s uuid with
  | none => Except.error UpdateError.notFound
  | some user =>
    let updated : User := ⟨user.uuid, user.pub_key, new_hash⟩
    Except.ok (updated, Storage.set s (key updated.uuid) (encodeUser updated))

end UserCLient

/-- Modelled from the spec: the parsed delete request struct
`{timestamp, uuid, credentialHash, signature}` (spec section 6), with the
field names used by `delete_user_handler.rs`. -/
structure DeleteUserRequest where
  timestamp : String
  user_uuid : String
  hash : String
  signature : String

/-- Modelled from the spec: the response taxonomy surfaced to the transport
layer — `success`, `authError`, `notFound`, `serverError(message)`
(spec section 6). -/
inductive Response where
  | success : Nat → Response
  | authError : Response
  | notFound : Response
  | serverError : String → Response
deriving DecidableEq

/-- The `delete_user_handler` (`handlers/delete_user_handler.rs`): builds the
message `format!("{}{}{}", timestamp, user_uuid, hash)`, parses the
signature (parse failure yields `authError`), fetches the user (absence
yields `notFound`), parses the stored public key (failure yields
`authError`), verifies (failure yields `authError`), then deletes the
user record and, as a separate step, removes the caller-specified index
entry. The in-memory `remove_key` cannot fail, so the source's
`serverError "Failed to delete key"` branch is unreachable and absent. -/
def delete_user_handler (env : CryptoEnv) (s : Storage)
    (body : DeleteUserRequest) : Response × Storage :=
  let message := body.timestamp ++ body.user_uuid ++ body.hash
  match env.signature_from_str body.signature with
  | none => (Response.authError, s)
  | some sig =>
    match UserCLient.get_user s body.user_uuid with
    | none => (Response.notFound, s)
    | some found_user =>
      match env.pub_key_parse found_user.pub_key with
      | none => (Response.authError, s)
      | some pub_key =>
        if env.verify message pub_key sig then
          let k := PubKeys.key body.hash pub_key.raw
          let res := UserCLient.delete_user s found_user.uuid
          if res.1 then
            (Response.success 202, UserCLient.remove_key res.2 k)
          else
            (Response.serverError "Failed to delete user", res.2)
        else
          (Response.authError, s)

/-- Concrete environment whose parsers succeed on every input and whose
verification always succeeds (used by witnesses). -/
def okEnv : CryptoEnv :=
  ⟨fun sg => some ⟨sg⟩, fun pk => some ⟨pk⟩, fun _ _ _ => true⟩

/-- Concrete environment whose signature parsing fails on every input
(used by witnesses and counterexamples). -/
def noParseEnv : CryptoEnv :=
  ⟨fun _ => none, fun _ => none, fun _ _ _ => false⟩

/-- Concrete environment whose parsers succeed on every input but whose
verification always fails (used by witnesses). -/
def noVerifyEnv : CryptoEnv :=
  ⟨fun sg => some ⟨sg⟩, fun pk => some ⟨pk⟩, fun _ _ _ => false⟩

theorem lookupKey_eraseKey_self {α : Type} (l : List (String × α)) (k : String) :
    lookupKey (eraseKey l k) k = none := by
  induction l with
  | nil => rfl
  | cons p rest ih =>
    obtain ⟨k', v⟩ := p
    by_cases h : k' = k
    · simp [eraseKey, h, ih]
    · simp [eraseKey, lookupKey, h, ih]

theorem lookupKey_eraseKey_ne {α : Type} (l : List (String × α)) (k k' : String)
    (h : k' ≠ k) : lookupKey (eraseKey l k') k = lookupKey l k := by
  induction l with
  | nil => rfl
  | cons p rest ih =>
    obtain ⟨k₀, v⟩ := p
    by_cases h0 : k₀ = k'
    · subst h0
      simp [eraseKey, lookupKey, h, ih]
    · simp only [eraseKey, h0, if_neg h0, lookupKey]
      by_cases h1 : k₀ = k <;> simp [h1, ih]

theorem Storage.get_set_same (s : Storage) (k : String) (v : Json) :
    Storage.get (Storage.set s k v) k = some v := by
  simp [Storage.get, Storage.set, lookupKey]

theorem Storage.get_set_ne (s : Storage) (k k' : String) (v : Json)
    (h : k' ≠ k) : Storage.get (Storage.set s k' v) k = Storage.get s k := by
  simp only [Storage.get, Storage.set, lookupKey, if_neg h]
  exact lookupKey_eraseKey_ne s k k' h

theorem Storage.get_delete_self (s : Storage) (k : String) :
    Storage.get (Storage.delete s k).2 k = none := by
  simpa [Storage.get, Storage.delete] using lookupKey_eraseKey_self s k

theorem Storage.get_delete_ne (s : Storage) (k k' : String) (h : k' ≠ k) :
    Storage.get (Storage.delete s k').2 k = Storage.get s k := by
  simpa [Storage.get, Storage.delete] using lookupKey_eraseKey_ne s k k' h

theorem decodeUser_encodeUser (u : User) :
    decodeUser (encodeUser u) = some u := by
  simp [decodeUser, encodeUser, lookupKey]

theorem decodePubKeys_encodePubKeys (ks : PubKeys) :
    decodePubKeys (encodePubKeys ks) = some ks := by
  induction ks with
  | nil => rfl
  | cons p rest ih =>
    obtain ⟨k, v⟩ := p
    simp only [encodePubKeys, decodePubKeys, List.map_cons, decodeEntries]
    simp only [encodePubKeys, decodePubKeys] at ih
    rw [ih]

theorem UserCLient.key_ne_keys (uuid : String) :
    UserCLient.key uuid ≠ KEYS_STRING := by
  intro h
  have h2 := congrArg String.length h
  simp only [UserCLient.key, String.length_append] at h2
  have h3 : USER_STRING.length = 4 := rfl
  have h4 : (":" : String).length = 1 := rfl
  have h5 : KEYS_STRING.length = 4 := rfl
  omega

theorem UserCLient.get_keys_save (s : Storage) (ks : PubKeys) :
    UserCLient.get_keys (UserCLient.save_pub_keys s ks) = ks := by
  simp [UserCLient.get_keys, UserCLient.save_pub_keys, Storage.get_set_same,
    decodePubKeys_encodePubKeys]

theorem UserCLient.get_keys_update (s : Storage) (pk : PublicKey) (u : String) :
    UserCLient.get_keys (UserCLient.update_keys s pk u)
      = PubKeys.add_user_uuid (UserCLient.get_keys s) u pk.raw := by
  simp [UserCLient.update_keys, UserCLient.get_keys_save]

/-- C6: for every uuid, `get_user` returns absence (`none`) both when no
document is stored under `"user:" + uuid` and when the stored document
fails to decode into a `User`; decode failure is never surfaced as a
distinct error (the result type of `get_user` carries no error case). -/
theorem C6_get_user_absent_or_undecodable (s : Storage) (uuid : String) :
    (Storage.get s (UserCLient.key uuid) = none →
      UserCLient.get_user s uuid = none)
    ∧ (∀ v : Json, Storage.get s (UserCLient.key uuid) = some v →
      decodeUser v = none → UserCLient.get_user s uuid = none) := by
  constructor
  · intro h
    simp [UserCLient.get_user, h]
  · intro v hv hdec
    simp [UserCLient.get_user, hv, hdec]

/-- C6 witness: evaluation on an empty store and on a store holding an
undecodable document under the user key. -/
theorem C6_witness :
    UserCLient.get_user ([] : Storage) "u" = none
    ∧ UserCLient.get_user [(UserCLient.key "u", Json.str "junk")] "u" = none :=
  ⟨(C6_get_user_absent_or_undecodable [] "u").1 rfl,
   (C6_get_user_absent_or_undecodable [(UserCLient.key "u", Json.str "junk")]
      "u").2 (Json.str "junk") rfl rfl⟩

/-- C7: `delete_user` returns `true` exactly when a record was stored under
the user key (and hence removed); after a delete the record is gone, so a
second delete of the same uuid returns `false` rather than erroring. -/
theorem C7_delete_user_idempotent (s : Storage) (uuid : String) :
    (UserCLient.delete_user s uuid).1
      = (Storage.get s (UserCLient.key uuid)).isSome
    ∧ Storage.get (UserCLient.delete_user s uuid).2 (UserCLient.key uuid)
      = none
    ∧ (UserCLient.delete_user (UserCLient.delete_user s uuid).2 uuid).1
      = false := by
  refine ⟨rfl, Storage.get_delete_self s (UserCLient.key uuid), ?_⟩
  simp [UserCLient.delete_user, Storage.delete, lookupKey_eraseKey_self]

/-- C8: reading the public-key index when the `"keys"` document is absent
yields the empty mapping as a successful result (the result type of
`get_keys` carries no error case), and every lookup in it is `none`. -/
theorem C8_get_keys_absent_is_empty (s : Storage)
    (h : Storage.get s KEYS_STRING = none) :
    UserCLient.get_keys s = PubKeys.default
    ∧ ∀ k : String,
      PubKeys.get_user_uuid (UserCLient.get_keys s) k = none := by
  constructor
  · simp [UserCLient.get_keys, h]
  · intro k
    simp [UserCLient.get_keys, h, PubKeys.get_user_uuid, PubKeys.default,
      lookupKey]

/-- C8 witness: evaluation on the empty store. -/
theorem C8_witness :
    UserCLient.get_keys ([] : Storage) = PubKeys.default
    ∧ PubKeys.get_user_uuid (UserCLient.get_keys ([] : Storage)) "K" = none :=
  ⟨(C8_get_keys_absent_is_empty [] rfl).1,
   (C8_get_keys_absent_is_empty [] rfl).2 "K"⟩

/-- C9: registering public key `K` for `u1` and then for `u2` leaves the
index resolving `K` to `u2` only — resolve after the two registrations
returns the most recently registered uuid (last write wins). -/
theorem C9_register_last_write_wins (s : Storage) (K : PublicKey)
    (u1 u2 : String) :
    UserCLient.get_user_uuid
      (UserCLient.update_keys (UserCLient.update_keys s K u1) K u2) K
      = some u2 := by
  simp [UserCLient.get_user_uuid, UserCLient.get_keys_update,
    PubKeys.get_user_uuid, PubKeys.add_user_uuid, lookupKey]

/-- C10: the storage key of a user record is `"user:" + uuid`, distinct from
the fixed index key `"keys"` for every uuid; consequently `put_user` and
`delete_user` leave the public-key index document untouched, and
`save_pub_keys` leaves every user record untouched. -/
theorem C10_user_keys_disjoint_frame :
    (∀ uuid : String, UserCLient.key uuid ≠ KEYS_STRING)
    ∧ (∀ (s : Storage) (uuid pk h : String),
      Storage.get (UserCLient.put_user s uuid pk h).2 KEYS_STRING
        = Storage.get s KEYS_STRING)
    ∧ (∀ (s : Storage) (uuid : String),
      Storage.get (UserCLient.delete_user s uuid).2 KEYS_STRING
        = Storage.get s KEYS_STRING)
    ∧ (∀ (s : Storage) (ks : PubKeys) (uuid : String),
      Storage.get (UserCLient.save_pub_keys s ks) (UserCLient.key uuid)
        = Storage.get s (UserCLient.key uuid)) := by
  refine ⟨UserCLient.key_ne_keys, ?_, ?_, ?_⟩
  · intro s uuid pk h
    exact Storage.get_set_ne s KEYS_STRING (UserCLient.key uuid) _
      (UserCLient.key_ne_keys uuid)
  · intro s uuid
    exact Storage.get_delete_ne s KEYS_STRING (UserCLient.key uuid)
      (UserCLient.key_ne_keys uuid)
  · intro s ks uuid
    exact Storage.get_set_ne s (UserCLient.key uuid) KEYS_STRING _
      fun h => UserCLient.key_ne_keys uuid h.symm

/-- C10 witness: evaluation of each conjunct at concrete inputs. -/
theorem C10_witness :
    UserCLient.key "u" ≠ KEYS_STRING
    ∧ Storage.get
        (UserCLient.put_user [(KEYS_STRING, Json.null)] "u" "K" "h").2
        KEYS_STRING = some Json.null
    ∧ Storage.get
        (UserCLient.delete_user [(KEYS_STRING, Json.null)] "u").2
        KEYS_STRING = some Json.null
    ∧ Storage.get
        (UserCLient.save_pub_keys [(UserCLient.key "u", Json.null)]
          [("K", "u1")]) (UserCLient.key "u") = some Json.null :=
  ⟨C10_user_keys_disjoint_frame.1 "u",
   (C10_user_keys_disjoint_frame.2.1 [(KEYS_STRING, Json.null)] "u" "K"
      "h").trans rfl,
   (C10_user_keys_disjoint_frame.2.2.1 [(KEYS_STRING, Json.null)] "u").trans
     rfl,
   (C10_user_keys_disjoint_frame.2.2.2 [(UserCLient.key "u", Json.null)]
      [("K", "u1")] "u").trans rfl⟩

/-- Concrete environment for the C5 witness whose verification accepts
exactly the message `"tuh"`. -/
def msgOnlyEnvA : CryptoEnv :=
  ⟨fun sg => some ⟨sg⟩, fun pk => some ⟨pk⟩, fun m _ _ => m == "tuh"⟩

/-- Concrete environment for the C5 witness with the same parsers as
`msgOnlyEnvA` and a verification function that differs from it away from
the message `"tuh"` (it accepts every three-character message). -/
def msgOnlyEnvB : CryptoEnv :=
  ⟨fun sg => some ⟨sg⟩, fun pk => some ⟨pk⟩, fun m _ _ => m.length == 3⟩

/-- C1 counterexample: a delete request for a uuid with no stored record
whose signature string does not parse is answered with `authError`, not
`notFoundError` — the handler parses the signature before the lookup
(`delete_user_handler.rs` lines 22-27 precede lines 29-34), so the
response is not independent of the signature's parseability. -/
theorem C1_counterexample :
    UserCLient.get_user ([] : Storage) "u" = none
    ∧ (delete_user_handler noParseEnv [] ⟨"t", "u", "h", "sg"⟩).1
        = Response.authError
    ∧ (delete_user_handler noParseEnv [] ⟨"t", "u", "h", "sg"⟩).1
        ≠ Response.notFound :=
  ⟨rfl, rfl, by decide⟩

/-- C1 (amended): for every delete request targeting a uuid with no stored
user record, if the signature string parses then the handler returns
`notFound` regardless of whether the signature would verify; if the
signature string fails to parse, the handler returns `authError`
instead. -/
theorem C1_missing_user_notFound_when_signature_parses (env : CryptoEnv)
    (s : Storage) (body : DeleteUserRequest) :
    (∀ sig : Signature, env.signature_from_str body.signature = some sig →
      UserCLient.get_user s body.user_uuid = none →
      (delete_user_handler env s body).1 = Response.notFound)
    ∧ (env.signature_from_str body.signature = none →
      (delete_user_handler env s body).1 = Response.authError) := by
  constructor
  · intro sig hsig hget
    simp [delete_user_handler, hsig, hget]
  · intro hsig
    simp [delete_user_handler, hsig]

/-- C1 witness: evaluation of both branches on the empty store, with a
parsing environment and a non-parsing environment. -/
theorem C1_witness :
    (delete_user_handler okEnv [] ⟨"t", "u", "h", "sg"⟩).1
      = Response.notFound
    ∧ (delete_user_handler noParseEnv [] ⟨"t", "u", "h", "sg"⟩).1
      = Response.authError :=
  ⟨(C1_missing_user_notFound_when_signature_parses okEnv []
      ⟨"t", "u", "h", "sg"⟩).1 ⟨"sg"⟩ rfl rfl,
   (C1_missing_user_notFound_when_signature_parses noParseEnv []
      ⟨"t", "u", "h", "sg"⟩).2 rfl⟩

/-- C2: no operation of the storage client removes a single entry from the
public-key index document — `delete_user` and `put_user` leave the
`"keys"` document untouched, and `update_keys` never drops an existing
entry (the index is only created lazily or overwritten whole); in the
delete handler the index-entry removal is a separate explicit
`remove_key` step applied by the caller after `delete_user`. -/
theorem C2_index_no_per_entry_removal :
    (∀ (s : Storage) (uuid : String),
      Storage.get (UserCLient.delete_user s uuid).2 KEYS_STRING
        = Storage.get s KEYS_STRING)
    ∧ (∀ (s : Storage) (uuid pk h : String),
      Storage.get (UserCLient.put_user s uuid pk h).2 KEYS_STRING
        = Storage.get s KEYS_STRING)
    ∧ (∀ (s : Storage) (pk : PublicKey) (u k : String),
      (PubKeys.get_user_uuid (UserCLient.get_keys s) k).isSome = true →
      (PubKeys.get_user_uuid
        (UserCLient.get_keys (UserCLient.update_keys s pk u)) k).isSome
        = true)
    ∧ (∀ (env : CryptoEnv) (s : Storage) (body : DeleteUserRequest)
        (sig : Signature) (u : User) (pk : PublicKey),
      env.signature_from_str body.signature = some sig →
      UserCLient.get_user s body.user_uuid = some u →
      env.pub_key_parse u.pub_key = some pk →
      env.verify (body.timestamp ++ body.user_uuid ++ body.hash) pk sig
        = true →
      (UserCLient.delete_user s u.uuid).1 = true →
      (delete_user_handler env s body).2
        = UserCLient.remove_key (UserCLient.delete_user s u.uuid).2
            (PubKeys.key body.hash pk.raw)) := by
  refine ⟨?_, ?_, ?_, ?_⟩
  · intro s uuid
    exact Storage.get_delete_ne s KEYS_STRING (UserCLient.key uuid)
      (UserCLient.key_ne_keys uuid)
  · intro s uuid pk h
    exact Storage.get_set_ne s KEYS_STRING (UserCLient.key uuid) _
      (UserCLient.key_ne_keys uuid)
  · intro s pk u k h
    rw [UserCLient.get_keys_update]
    simp only [PubKeys.get_user_uuid, PubKeys.add_user_uuid, lookupKey]
    by_cases hk : pk.raw = k
    · simp [hk]
    · rw [if_neg hk, lookupKey_eraseKey_ne _ _ _ hk]
      exact h
  · intro env s body sig u pk h1 h2 h3 h4 h5
    simp [delete_user_handler, h1, h2, h3, h4, h5]

/-- C2 witness: evaluation of each conjunct at concrete inputs; the fourth
conjunct runs the full success path of the delete handler. -/
theorem C2_witness :
    Storage.get
      (UserCLient.delete_user [(KEYS_STRING, Json.null)] "u").2 KEYS_STRING
      = Storage.get ([(KEYS_STRING, Json.null)] : Storage) KEYS_STRING
    ∧ (PubKeys.get_user_uuid
        (UserCLient.get_keys
          (UserCLient.update_keys
            [(KEYS_STRING, encodePubKeys [("K", "u1")])] ⟨"K2"⟩ "u2"))
        "K").isSome = true
    ∧ (delete_user_handler okEnv
        [(UserCLient.key "u", encodeUser ⟨"u", "K", "h"⟩)]
        ⟨"t", "u", "h", "sg"⟩).2
      = UserCLient.remove_key
          (UserCLient.delete_user
            [(UserCLient.key "u", encodeUser ⟨"u", "K", "h"⟩)] "u").2
          (PubKeys.key "h" "K") :=
  ⟨C2_index_no_per_entry_removal.1 [(KEYS_STRING, Json.null)] "u",
   C2_index_no_per_entry_removal.2.2.1
     [(KEYS_STRING, encodePubKeys [("K", "u1")])] ⟨"K2"⟩ "u2" "K" rfl,
   C2_index_no_per_entry_removal.2.2.2 okEnv
     [(UserCLient.key "u", encodeUser ⟨"u", "K", "h"⟩)]
     ⟨"t", "u", "h", "sg"⟩ ⟨"sg"⟩ ⟨"u", "K", "h"⟩ ⟨"K"⟩ rfl rfl rfl rfl rfl⟩

/-- C3: a delete request whose signature string fails to parse and a delete
request whose parsed signature fails verification receive the identical
opaque `authError` response, with unchanged storage in both cases — the
caller cannot distinguish the two causes. -/
theorem C3_parse_and_verify_failures_identical (env₁ env₂ : CryptoEnv)
    (s₁ s₂ : Storage) (b₁ b₂ : DeleteUserRequest) (sig : Signature)
    (u : User) (pk : PublicKey)
    (h1 : env₁.signature_from_str b₁.signature = none)
    (h2 : env₂.signature_from_str b₂.signature = some sig)
    (h3 : UserCLient.get_user s₂ b₂.user_uuid = some u)
    (h4 : env₂.pub_key_parse u.pub_key = some pk)
    (h5 : env₂.verify (b₂.timestamp ++ b₂.user_uuid ++ b₂.hash) pk sig
      = false) :
    (delete_user_handler env₁ s₁ b₁).1 = (delete_user_handler env₂ s₂ b₂).1
    ∧ (delete_user_handler env₁ s₁ b₁).1 = Response.authError
    ∧ (delete_user_handler env₁ s₁ b₁).2 = s₁
    ∧ (delete_user_handler env₂ s₂ b₂).2 = s₂ := by
  have e1 : delete_user_handler env₁ s₁ b₁ = (Response.authError, s₁) := by
    simp [delete_user_handler, h1]
  have e2 : delete_user_handler env₂ s₂ b₂ = (Response.authError, s₂) := by
    simp [delete_user_handler, h2, h3, h4, h5]
  rw [e1, e2]
  exact ⟨rfl, rfl, rfl, rfl⟩

/-- C3 witness: a non-parsing environment on the empty store against a
verification-failing environment on a store holding the target user. -/
theorem C3_witness :
    (delete_user_handler noParseEnv [] ⟨"t", "u", "h", "sg"⟩).1
      = (delete_user_handler noVerifyEnv
          [(UserCLient.key "u", encodeUser ⟨"u", "K", "h"⟩)]
          ⟨"t", "u", "h", "sg"⟩).1
    ∧ (delete_user_handler noParseEnv [] ⟨"t", "u", "h", "sg"⟩).1
      = Response.authError :=
  ⟨(C3_parse_and_verify_failures_identical noParseEnv noVerifyEnv []
      [(UserCLient.key "u", encodeUser ⟨"u", "K", "h"⟩)]
      ⟨"t", "u", "h", "sg"⟩ ⟨"t", "u", "h", "sg"⟩ ⟨"sg"⟩ ⟨"u", "K", "h"⟩
      ⟨"K"⟩ rfl rfl rfl rfl rfl).1,
   (C3_parse_and_verify_failures_identical noParseEnv noVerifyEnv []
      [(UserCLient.key "u", encodeUser ⟨"u", "K", "h"⟩)]
      ⟨"t", "u", "h", "sg"⟩ ⟨"t", "u", "h", "sg"⟩ ⟨"sg"⟩ ⟨"u", "K", "h"⟩
      ⟨"K"⟩ rfl rfl rfl rfl rfl).2.1⟩

/-- C4: the modelled `update_hash` operation reads the existing user, fails
with `notFound` if the user is absent, and otherwise rewrites the full
record with the credential hash replaced and `uuid` and `pub_key`
unchanged, returning the updated user (which is then readable back). The
compiled repository exposes no such operation — see the code_bug note. -/
theorem C4_update_hash_follows_spec (s : Storage) (uuid new_hash : String) :
    (UserCLient.get_user s uuid = none →
      UserCLient.update_hash s uuid new_hash
        = Except.error UpdateError.notFound)
    ∧ (∀ u : User, UserCLient.get_user s uuid = some u →
      ∃ s' : Storage,
        UserCLient.update_hash s uuid new_hash
          = Except.ok (⟨u.uuid, u.pub_key, new_hash⟩, s')
        ∧ UserCLient.get_user s' u.uuid
          = some ⟨u.uuid, u.pub_key, new_hash⟩) := by
  constructor
  · intro h
    simp [UserCLient.update_hash, h]
  · intro u h
    refine ⟨Storage.set s (UserCLient.key u.uuid)
      (encodeUser ⟨u.uuid, u.pub_key, new_hash⟩), ?_, ?_⟩
    · simp [UserCLient.update_hash, h]
    · simp [UserCLient.get_user, Storage.get_set_same, decodeUser_encodeUser]

/-- C4 witness: evaluation of both branches — on the empty store and on a
store holding the target user. -/
theorem C4_witness :
    UserCLient.update_hash ([] : Storage) "u" "h2"
      = Except.error UpdateError.notFound
    ∧ ∃ s' : Storage,
      UserCLient.update_hash
        [(UserCLient.key "u", encodeUser ⟨"u", "K", "h1"⟩)] "u" "h2"
        = Except.ok (⟨"u", "K", "h2"⟩, s')
      ∧ UserCLient.get_user s' "u" = some ⟨"u", "K", "h2"⟩ :=
  ⟨(C4_update_hash_follows_spec [] "u" "h2").1 rfl,
   (C4_update_hash_follows_spec
      [(UserCLient.key "u", encodeUser ⟨"u", "K", "h1"⟩)] "u" "h2").2
     ⟨"u", "K", "h1"⟩ rfl⟩

/-- C5: the message the handler passes to signature verification is exactly
the concatenation `timestamp ++ uuid ++ hash` with no delimiters — two
environments with identical parsers whose verification functions agree on
that concatenation (and may disagree on every other message) produce
identical handler results on every request and store. -/
theorem C5_verify_message_is_concatenation (env env' : CryptoEnv)
    (s : Storage) (body : DeleteUserRequest)
    (hsig : env'.signature_from_str = env.signature_from_str)
    (hpk : env'.pub_key_parse = env.pub_key_parse)
    (hv : ∀ (pk : PublicKey) (sig : Signature),
      env.verify (body.timestamp ++ body.user_uuid ++ body.hash) pk sig
        = env'.verify (body.timestamp ++ body.user_uuid ++ body.hash) pk
            sig) :
    delete_user_handler env s body = delete_user_handler env' s body := by
  simp only [delete_user_handler, hsig, hpk]
  cases hs : env.signature_from_str body.signature with
  | none => rfl
  | some sig =>
    dsimp only
    cases hu : UserCLient.get_user s body.user_uuid with
    | none => rfl
    | some fu =>
      dsimp only
      cases hp : env.pub_key_parse fu.pub_key with
      | none => rfl
      | some pk =>
        dsimp only
        rw [hv pk sig]

/-- C5 witness: two environments agreeing only on the message `"tuh"`, run
on the request whose concatenated message is `"tuh"`, over a store
holding the target user (exercising the verification path). -/
theorem C5_witness :
    delete_user_handler msgOnlyEnvA
      [(UserCLient.key "u", encodeUser ⟨"u", "K", "h"⟩)]
      ⟨"t", "u", "h", "sg"⟩
    = delete_user_handler msgOnlyEnvB
        [(UserCLient.key "u", encodeUser ⟨"u", "K", "h"⟩)]
        ⟨"t", "u", "h", "sg"⟩ :=
  C5_verify_message_is_concatenation msgOnlyEnvA msgOnlyEnvB
    [(UserCLient.key "u", encodeUser ⟨"u", "K", "h"⟩)]
    ⟨"t", "u", "h", "sg"⟩ rfl rfl (fun _ _ => rfl)
